import Mathlib

/-!
Verification of `scripts/constants.py`: a straight-line script that computes
π-derived constants and WGS84 ellipsoid constants in IEEE-754 binary64
arithmetic and prints each one to standard output in fixed-point notation with
16 fractional digits.

The embedding is exact: every binary64 value is represented by the rational
number it denotes, each floating-point operation is modelled as the exact
rational operation followed by rounding to nearest (ties to even) at 53 bits
of precision, `math.sqrt` is modelled as the correctly rounded square root,
and the `0.16f` formatting is modelled as correctly rounded fixed-point
rendering.  All values in the script lie far inside the normal range of
binary64, so the exponent range is treated as unbounded (no overflow,
underflow or subnormals arise).  Every definition is executable, so each
property is settled by kernel computation.
-/

set_option maxRecDepth 4096

namespace Constants

/-- Number of binary digits of a natural number, computed with explicit fuel
so that it reduces inside the kernel. `bitLen 0 = 0`, `bitLen n = ⌊log₂ n⌋ + 1`
for `n > 0` (fuel 4096 covers all numbers below `2 ^ 4096`). -/
def bitLenAux : Nat → Nat → Nat
  | 0, _ => 0
  | fuel + 1, n => if n = 0 then 0 else bitLenAux fuel (n / 2) + 1

/-- Number of binary digits of a natural number. -/
def bitLen (n : Nat) : Nat := bitLenAux 4096 n

/-- Newton iteration for the integer square root, with explicit fuel; the
iterate decreases strictly until it reaches `⌊√n⌋` when started above it. -/
def isqrtAux : Nat → Nat → Nat → Nat
  | 0, _, x => x
  | fuel + 1, n, x =>
    let x' := (x + n / x) / 2
    if x' < x then isqrtAux fuel n x' else x

/-- Integer square root `⌊√n⌋` via Newton iteration started above the root,
with a final correction step enforcing the characterization
`g * g ≤ n < (g + 1) * (g + 1)`. -/
def isqrt (n : Nat) : Nat :=
  if n ≤ 1 then n
  else
    let g := isqrtAux 256 n (2 ^ (bitLen n / 2 + 1))
    let g := if n < g * g then g - 1 else g
    if (g + 1) * (g + 1) ≤ n then g + 1 else g

/-- Decide whether `n / d ≥ 2 ^ k` for naturals `n, d > 0` and an integer `k`,
by clearing the power of two to whichever side keeps it a natural number. -/
def geShift (n d : Nat) (k : Int) : Bool :=
  if 0 ≤ k then d * 2 ^ k.toNat ≤ n else d ≤ n * 2 ^ (-k).toNat

/-- Walk from an initial estimate to the unique exponent `e` with
`2 ^ (52 + e) ≤ n / d < 2 ^ (53 + e)`, with explicit fuel. -/
def adjustExp : Nat → Nat → Nat → Int → Int
  | 0, _, _, e => e
  | fuel + 1, n, d, e =>
    if geShift n d (53 + e) then adjustExp fuel n d (e + 1)
    else if geShift n d (52 + e) then e
    else adjustExp fuel n d (e - 1)

/-- The exponent `e` such that the positive rational `q` lies in
`[2 ^ (52 + e), 2 ^ (53 + e))`: a binary64 number in this binade has a unit in
the last place of `2 ^ e`.  The initial estimate from the bit lengths of the
numerator and denominator is off by at most a few steps. -/
def expOf (q : ℚ) : Int :=
  adjustExp 64 q.num.toNat q.den ((bitLen q.num.toNat : Int) - (bitLen q.den : Int) - 53)

/-- The rational value `m * 2 ^ e`. -/
def dyadic (m : Nat) (e : Int) : ℚ :=
  if 0 ≤ e then ((m * 2 ^ e.toNat : Nat) : ℚ) else (m : ℚ) / ((2 ^ (-e).toNat : Nat) : ℚ)

/-- Round the fraction `P / Q` to the nearest integer, ties to even. -/
def roundInt (P Q : Nat) : Nat :=
  let m := P / Q
  let r := P % Q
  if 2 * r < Q then m
  else if Q < 2 * r then m + 1
  else if m % 2 = 0 then m else m + 1

/-- Round a positive rational to the nearest binary64 value (round to nearest,
ties to even): scale into the binade `[2^52, 2^53)`, round the 53-bit
significand, and scale back. -/
def roundPos (q : ℚ) : ℚ :=
  let n := q.num.toNat
  let d := q.den
  let e := expOf q
  let P := if 0 ≤ e then n else n * 2 ^ (-e).toNat
  let Q := if 0 ≤ e then d * 2 ^ e.toNat else d
  dyadic (roundInt P Q) e

/-- Round a rational to the nearest IEEE-754 binary64 value (round to nearest,
ties to even), with the exponent range treated as unbounded; this is the
rounding applied after every arithmetic operation of the script, none of which
leaves the normal range. -/
def roundD (q : ℚ) : ℚ :=
  if q = 0 then 0 else if q < 0 then -roundPos (-q) else roundPos q

/-- Absolute value of a rational, written directly so that it evaluates by
plain unfolding. -/
def qabs (q : ℚ) : ℚ := if q < 0 then -q else q

/-- Unit in the last place at the magnitude of `q` (for `q` in the binade
`[2^(52+e), 2^(53+e))` this is `2 ^ e`). -/
def ulp (q : ℚ) : ℚ :=
  if q = 0 then 0 else dyadic 1 (expOf (qabs q))

/-- binary64 addition: exact rational sum, then rounding. -/
def addD (x y : ℚ) : ℚ := roundD (x + y)

/-- binary64 subtraction: exact rational difference, then rounding. -/
def subD (x y : ℚ) : ℚ := roundD (x - y)

/-- binary64 multiplication: exact rational product, then rounding. -/
def mulD (x y : ℚ) : ℚ := roundD (x * y)

/-- binary64 division: exact rational quotient, then rounding. -/
def divD (x y : ℚ) : ℚ := roundD (x / y)

/-- binary64 power with a natural exponent, correctly rounded; this models
CPython's `float ** int` for the single use `f ** 2` in the script, where the
platform `pow` is IEEE-754 correctly rounded. -/
def powD (x : ℚ) (n : Nat) : ℚ := roundD (x ^ n)

/-- Python float division `x / y`, which raises `ZeroDivisionError` when
`y == 0`; modelled as `none` on a zero divisor. -/
def fdiv? (x y : ℚ) : Option ℚ := if y = 0 then none else some (divD x y)

/-- Compare `A * 2 ^ k` with `B` for naturals `A, B` and an integer `k`. -/
def cmpShift (A B : Nat) (k : Int) : Ordering :=
  if 0 ≤ k then compare (A * 2 ^ k.toNat) B else compare A (B * 2 ^ (-k).toNat)

/-- Correctly rounded binary64 square root of a positive rational (round to
nearest, ties to even), modelling `math.sqrt`: choose the result exponent `E`
so that the significand lands in `[2^52, 2^53]`, take the integer square root
of the scaled radicand, and decide the rounding direction by comparing
`4 * x * 2^(-2E)` with `(2 * m + 1) ^ 2` in exact integer arithmetic. -/
def sqrtD (x : ℚ) : ℚ :=
  if x ≤ 0 then 0
  else
    let E : Int := (expOf x + 52 - 104).fdiv 2
    let n := x.num.toNat
    let d := x.den
    let floorY := if 0 ≤ E then n / (d * 2 ^ (2 * E).toNat) else n * 2 ^ (2 * (-E)).toNat / d
    let m0 := isqrt floorY
    let c := cmpShift (4 * n) (d * (2 * m0 + 1) ^ 2) (2 * (-E))
    let m := match c with
      | .lt => m0
      | .gt => m0 + 1
      | .eq => if m0 % 2 = 0 then m0 else m0 + 1
    dyadic m E

/-- `math.sqrt`, which raises `ValueError` on a negative argument; modelled as
`none` there. -/
def sqrt? (x : ℚ) : Option ℚ := if x < 0 then none else some (sqrtD x)

/-- Number of trailing zero bits of a natural number, with explicit fuel
(`trailingZeros 0 = 0`). -/
def trailingZerosAux : Nat → Nat → Nat
  | 0, _ => 0
  | fuel + 1, n => if n = 0 ∨ n % 2 = 1 then 0 else trailingZerosAux fuel (n / 2) + 1

/-- Number of trailing zero bits of a natural number. -/
def trailingZeros (n : Nat) : Nat := trailingZerosAux 4096 n

/-- `q` is exactly representable as a binary64 number with unbounded exponent:
in lowest terms its denominator is a power of two and its odd part fits in the
53-bit significand. -/
def representable (q : ℚ) : Prop :=
  q.den.land (q.den - 1) = 0 ∧ q.num.natAbs / 2 ^ trailingZeros q.num.natAbs < 2 ^ 53

instance (q : ℚ) : Decidable (representable q) := by
  unfold representable; infer_instance

/-- `r` is the binary64 value nearest to `√x` (for positive `x` and `r` away
from a power of two): `r` is representable and `√x` lies within half a unit in
the last place of `r` on either side, expressed by comparing squares so that
everything stays rational. -/
def isCorrectSqrtOf (r x : ℚ) : Prop :=
  0 < r ∧ representable r ∧ (r - ulp r / 2) ^ 2 ≤ x ∧ x ≤ (r + ulp r / 2) ^ 2

instance (r x : ℚ) : Decidable (isCorrectSqrtOf r x) := by
  unfold isCorrectSqrtOf; infer_instance

/-- Decimal digit characters for rendering. -/
def digitChar (d : Nat) : Char :=
  match d with
  | 0 => '0' | 1 => '1' | 2 => '2' | 3 => '3' | 4 => '4'
  | 5 => '5' | 6 => '6' | 7 => '7' | 8 => '8' | 9 => '9'
  | _ => '?'

/-- Decimal rendering of a natural number, most significant digit first, with
explicit fuel (64 digits suffice for every number in this development). -/
def natToStrAux : Nat → Nat → List Char → List Char
  | 0, _, acc => acc
  | fuel + 1, n, acc =>
    if n < 10 then digitChar n :: acc
    else natToStrAux fuel (n / 10) (digitChar (n % 10) :: acc)

/-- Decimal rendering of a natural number. -/
def natToStr (n : Nat) : String := String.mk (natToStrAux 64 n [])

/-- Exactly `fuel` decimal digits of `n`, most significant first, keeping
leading zeros. -/
def fixedDigitsAux : Nat → Nat → List Char → List Char
  | 0, _, acc => acc
  | fuel + 1, n, acc => fixedDigitsAux fuel (n / 10) (digitChar (n % 10) :: acc)

/-- Fixed-point rendering of a nonnegative rational with exactly 16 digits
after the decimal point, correctly rounded with ties to even: exactly what
Python's `format(x, '0.16f')` produces for a nonnegative finite float `x`. -/
def fix16abs (q : ℚ) : String :=
  let t : ℚ := q * 10 ^ 16
  let N := roundInt t.num.toNat t.den
  natToStr (N / 10 ^ 16) ++ "." ++ String.mk (fixedDigitsAux 16 (N % 10 ^ 16) [])

/-- Fixed-point rendering with exactly 16 fractional digits, as produced by
the script's `f"... = {value:0.16f}"` format specifier. -/
def fix16 (q : ℚ) : String :=
  if q < 0 then "-" ++ fix16abs (-q) else fix16abs q

/-! The values computed by `scripts/constants.py`, line by line.  Each Python
literal denotes the binary64 value nearest to the written decimal, hence the
`roundD` around each literal. -/

/-- `pi = 3.141592653589793238462643383279502884197` (line 13). -/
def pi : ℚ := roundD (3.141592653589793238462643383279502884197 : ℚ)

/-- `a = 6378137.0` (line 21), the WGS84 semi-major axis in meters; the
literal is an integer, so no rounding occurs. -/
def a : ℚ := roundD (6378137.0 : ℚ)

/-- `inv_f = 298.257223563` (line 22), the WGS84 inverse flattening. -/
def inv_f : ℚ := roundD (298.257223563 : ℚ)

/-- `f = 1.0 / inv_f` (line 24), the flattening. -/
def f : ℚ := divD 1 inv_f

/-- `ecc2 = 2 * f - f**2` (line 27), the first eccentricity squared. -/
def ecc2 : ℚ := subD (mulD 2 f) (powD f 2)

/-- `ecc = m.sqrt(ecc2)` (line 30), the first eccentricity. -/
def ecc : ℚ := sqrtD ecc2

/-- `b = a * (1 - f)` (line 33), the semi-minor axis in meters. -/
def b : ℚ := mulD a (subD 1 f)

/-- `radius = (2 * a + b) / 3` (line 36), the mean radius in meters. -/
def radius : ℚ := divD (addD (mulD 2 a) b) 3

/-- The nine lines the script writes to standard output, in program order;
each `print` call appends one newline-terminated line. -/
def output : List String :=
  [ "pi = " ++ fix16 pi
  , "2pi = " ++ fix16 (mulD 2 pi)
  , "pi/2 = " ++ fix16 (mulD (0.5 : ℚ) pi)
  , "pi/4 = " ++ fix16 (mulD (0.25 : ℚ) pi)
  , "f = " ++ fix16 f
  , "ecc2 = " ++ fix16 ecc2
  , "ecc = " ++ fix16 ecc
  , "b = " ++ fix16 b
  , "radius = " ++ fix16 radius ]

/-- The whole run of the script with its two fallible operations (the float
division by `inv_f` and `math.sqrt`) threaded through `Option`: `none` would
correspond to an uncaught exception and a nonzero exit code, `some lines` to a
clean run printing `lines` and exiting with code 0. -/
def run : Option (List String) :=
  (fdiv? 1 inv_f).bind fun fv =>
    (sqrt? (subD (mulD 2 fv) (powD fv 2))).bind fun eccv =>
      let bv := mulD a (subD 1 fv)
      (fdiv? (addD (mulD 2 a) bv) 3).map fun radiusv =>
        [ "pi = " ++ fix16 pi
        , "2pi = " ++ fix16 (mulD 2 pi)
        , "pi/2 = " ++ fix16 (mulD (0.5 : ℚ) pi)
        , "pi/4 = " ++ fix16 (mulD (0.25 : ℚ) pi)
        , "f = " ++ fix16 fv
        , "ecc2 = " ++ fix16 (subD (mulD 2 fv) (powD fv 2))
        , "ecc = " ++ fix16 eccv
        , "b = " ++ fix16 bv
        , "radius = " ++ fix16 radiusv ]

/-- The name part of an output line: the characters before the first space. -/
def nameOf (s : String) : String := String.mk (s.data.takeWhile (fun c => c != ' '))

/-- The value part of an output line: the characters after `" = "`. -/
def valOf (s : String) : String := String.mk ((s.data.dropWhile (fun c => c != '=')).drop 2)

/-- The fractional digits of the value part of an output line: the characters
after the decimal point. -/
def fracOf (s : String) : List Char := (s.data.dropWhile (fun c => c != '.')).drop 1

/-- Claim C1 (counterexample): the program's output is not the nine lines
listed in §6 of the specification: the `ecc2` line ends in `...13`, not
`...14`, and the `b` and `radius` lines differ from §6 (the `0.16f` format
prints 16 fractional digits where §6 shows 10, and §6's `radius` digits are
not those of `(2a + b) / 3` at all). -/
theorem output_ne_spec_lines : output ≠
    [ "pi = 3.1415926535897931"
    , "2pi = 6.2831853071795862"
    , "pi/2 = 1.5707963267948966"
    , "pi/4 = 0.7853981633974483"
    , "f = 0.0033528106647475"
    , "ecc2 = 0.0066943799901414"
    , "ecc = 0.0818191908426215"
    , "b = 6356752.3142451793"
    , "radius = 6371008.7714817859" ] := by
  with_unfolding_all decide

/-- Claim C1 (amended): running the program with no arguments succeeds (no
operation fails, so the process exits with code 0) and writes exactly these
nine newline-terminated lines, digit for digit, in this order, with no other
output.  The first seven lines match §6 except for the last digit of `ecc2`;
the `b` and `radius` lines carry the full 16 fractional digits the `0.16f`
format produces, and the mean radius is `6371008.77141506...`, not §6's
`6371008.7714817859`. -/
theorem run_output_exact : run = some
    [ "pi = 3.1415926535897931"
    , "2pi = 6.2831853071795862"
    , "pi/2 = 1.5707963267948966"
    , "pi/4 = 0.7853981633974483"
    , "f = 0.0033528106647475"
    , "ecc2 = 0.0066943799901413"
    , "ecc = 0.0818191908426215"
    , "b = 6356752.3142451792955399"
    , "radius = 6371008.7714150594547391" ] := by
  with_unfolding_all decide

/-- Claim C2: every value the program prints equals its defining closed-form
expression evaluated in IEEE-754 double precision, computed in program order:
`pi` is the long source literal rounded to the nearest double
`884279719003555 / 2^48`; `f = 1.0 / 298.257223563` (the literal itself first
rounded to the nearest double); `ecc2 = 2*f - f*f`; `ecc` is the correctly
rounded double-precision square root of `ecc2`; `b = 6378137.0 * (1 - f)`;
and `radius = (2 * 6378137.0 + b) / 3`.  Each computed double is pinned to
its explicit dyadic rational value. -/
theorem values_closed_forms :
    pi = (884279719003555 : ℚ) / ((2 ^ 48 : Nat) : ℚ) ∧
    a = (6378137 : ℚ) ∧
    inv_f = (655874570751409 : ℚ) / ((2 ^ 41 : Nat) : ℚ) ∧
    f = divD 1 (roundD (298.257223563 : ℚ)) ∧
    f = (966381879065637 : ℚ) / ((2 ^ 58 : Nat) : ℚ) ∧
    ecc2 = subD (mulD 2 f) (mulD f f) ∧
    ecc2 = (482380915665231 : ℚ) / ((2 ^ 56 : Nat) : ℚ) ∧
    isCorrectSqrtOf ecc ecc2 ∧
    ecc = (2947847019124685 : ℚ) / ((2 ^ 55 : Nat) : ℚ) ∧
    b = mulD (6378137 : ℚ) (subD 1 f) ∧
    b = (426594426538365 : ℚ) / ((2 ^ 26 : Nat) : ℚ) ∧
    radius = divD (addD (mulD 2 (6378137 : ℚ)) b) 3 ∧
    radius = (6840818578939205 : ℚ) / ((2 ^ 30 : Nat) : ℚ) := by
  refine ⟨Rat.ext ?_ ?_, Rat.ext ?_ ?_, Rat.ext ?_ ?_, Rat.ext ?_ ?_,
    Rat.ext ?_ ?_, Rat.ext ?_ ?_, Rat.ext ?_ ?_, ?_, Rat.ext ?_ ?_,
    Rat.ext ?_ ?_, Rat.ext ?_ ?_, Rat.ext ?_ ?_, Rat.ext ?_ ?_⟩ <;>
  with_unfolding_all decide

/-- Claim C3 (counterexample): the program does not write eleven lines to
standard output; it writes nine (`a` and `inv_f` are used internally but never
printed, and no other constant is printed either). -/
theorem output_not_eleven_lines : output.length ≠ 11 := by
  with_unfolding_all decide

/-- Claim C3 (amended): the program writes nine lines of text to standard
output, one per printed constant, in the fixed order `pi`, `2pi`, `pi/2`,
`pi/4`, `f`, `ecc2`, `ecc`, `b`, `radius` (with `a` and `inv_f` used
internally but not printed), and each line has the form `<name> = <value>`
where `<value>` is in fixed-point notation with exactly 16 digits after the
decimal point. -/
theorem output_nine_lines_format :
    output.length = 9 ∧
    output.map nameOf = ["pi", "2pi", "pi/2", "pi/4", "f", "ecc2", "ecc", "b", "radius"] ∧
    output.all (fun s => s == nameOf s ++ " = " ++ valOf s) = true ∧
    output.all (fun s => (fracOf s).length == 16) = true := by
  with_unfolding_all decide

/-- Claim C4: the printed multiples of `pi` are exact bit-for-bit scalings of
the single `pi` double: the doubles printed as `2pi`, `pi/2` and `pi/4` equal
the exact rationals `2 * pi`, `(1/2) * pi` and `(1/4) * pi` with no rounding,
since multiplication by a power of two is exact in binary64. -/
theorem pi_multiples_exact :
    mulD 2 pi = 2 * pi ∧
    mulD (0.5 : ℚ) pi = (1 / 2 : ℚ) * pi ∧
    mulD (0.25 : ℚ) pi = (1 / 4 : ℚ) * pi := by
  refine ⟨Rat.ext ?_ ?_, Rat.ext ?_ ?_, Rat.ext ?_ ?_⟩ <;>
  with_unfolding_all decide

/-- Claim C5: the round-trip product of the computed square root differs from
`ecc2` by at most one unit in the last place of `ecc2` (namely `2 ^ (-60)`);
this holds both for the double product `fl(ecc * ecc)` (which lands exactly
one ulp below `ecc2`) and for the exact rational product `ecc * ecc`. -/
theorem ecc_roundtrip_within_ulp :
    qabs (mulD ecc ecc - ecc2) ≤ ulp ecc2 ∧
    qabs (ecc * ecc - ecc2) ≤ ulp ecc2 ∧
    ulp ecc2 = 1 / ((2 ^ 60 : Nat) : ℚ) := by
  refine ⟨?_, ?_, Rat.ext ?_ ?_⟩ <;> with_unfolding_all decide

/-- Claim C6: the computed doubles satisfy the strict ordering
`b < radius < a` (hence `b < a`): the semi-minor axis is strictly below the
mean radius `(2a + b) / 3`, which is strictly below the semi-major axis. -/
theorem axes_ordering : b < radius ∧ radius < a ∧ b < a := by
  with_unfolding_all decide

/-- Claim C7: no operation in the program can fail: the divisions have
nonzero divisors (`inv_f ≠ 0` and `3 ≠ 0`), the argument of `sqrt` is
nonnegative, and the whole run threads through every fallible operation
without hitting a failure path, producing exactly the program's output. -/
theorem no_failure_paths :
    inv_f ≠ 0 ∧
    fdiv? 1 inv_f = some f ∧
    0 ≤ ecc2 ∧
    sqrt? ecc2 = some ecc ∧
    fdiv? (addD (mulD 2 a) b) 3 = some radius ∧
    run = some output := by
  have hinv : inv_f ≠ 0 := Rat.num_ne_zero.mp (by with_unfolding_all decide)
  have h3 : (3 : ℚ) ≠ 0 := by norm_num
  have hecc : ¬ ecc2 < 0 := by with_unfolding_all decide
  refine ⟨hinv, ?_, not_lt.mp hecc, ?_, ?_, ?_⟩
  · unfold fdiv?
    rw [if_neg hinv]
    rfl
  · unfold sqrt?
    rw [if_neg hecc]
    rfl
  · unfold fdiv?
    rw [if_neg h3]
    rfl
  · with_unfolding_all decide

/-- Claim C8 (counterexample): the computed doubles do not satisfy the
glossary relation `f = (a - b) / a` exactly: neither the double evaluation
`fl(fl(a - b) / a)` nor the exact rational quotient `(a - b) / a` equals the
computed flattening `f` (rounding `1 - f` to 53 bits inside `b` discards the
low bits of `f`). -/
theorem flattening_relation_fails :
    divD (subD a b) a ≠ f ∧ (a - b) / a ≠ f := by
  constructor
  · exact fun h => absurd (congrArg Rat.num h) (by with_unfolding_all decide)
  · exact fun h => absurd (congrArg Rat.num h) (by with_unfolding_all decide)

/-- Claim C8 (amended): dividing the difference of the computed semi-major
and semi-minor axes by the semi-major axis recovers the computed flattening
`f` only approximately: the subtraction `a - b` itself is exact, but the
double result `fl(fl(a - b) / a)` exceeds `f` by exactly 74 units in the last
place of `f`, the exact quotient `(a - b) / a` is also within 74 ulps of `f`,
and the recovered value agrees with `f` in all 16 printed fractional
digits. -/
theorem flattening_relation_approx :
    subD a b = a - b ∧
    divD (subD a b) a - f = 74 * ulp f ∧
    qabs ((a - b) / a - f) < 74 * ulp f ∧
    fix16 (divD (subD a b) a) = fix16 f := by
  refine ⟨Rat.ext ?_ ?_, Rat.ext ?_ ?_, ?_, ?_⟩ <;> with_unfolding_all decide

/-- Claim C9: for the specific double `f = 1.0 / 298.257223563`, the
exponentiation `f ** 2` in the code (a correctly rounded power) yields
bit-for-bit the same binary64 value as the multiplication `f * f` prescribed
by the specification's algorithm, so the two formulations of `ecc2` agree. -/
theorem pow_two_eq_mul_self :
    powD f 2 = mulD f f ∧
    subD (mulD 2 f) (powD f 2) = subD (mulD 2 f) (mulD f f) := by
  refine ⟨Rat.ext ?_ ?_, Rat.ext ?_ ?_⟩ <;> with_unfolding_all decide

set_option exponentiation.threshold 2048 in
/-- Claim C10: every derived constant is a strictly positive finite double
(each is representable and far below the binary64 overflow threshold
`2 ^ 1024`); moreover `f`, `ecc2` and `ecc` lie strictly between 0 and 1, so
in particular the argument of `sqrt` is strictly positive. -/
theorem derived_positive_bounded :
    0 < pi ∧ 0 < mulD 2 pi ∧ 0 < mulD (0.5 : ℚ) pi ∧ 0 < mulD (0.25 : ℚ) pi ∧
    0 < f ∧ f < 1 ∧ 0 < ecc2 ∧ ecc2 < 1 ∧ 0 < ecc ∧ ecc < 1 ∧
    0 < b ∧ 0 < radius ∧
    representable pi ∧ representable f ∧ representable ecc2 ∧ representable ecc ∧
    representable b ∧ representable radius ∧
    pi < ((2 ^ 1024 : Nat) : ℚ) ∧ b < ((2 ^ 1024 : Nat) : ℚ) ∧
    radius < ((2 ^ 1024 : Nat) : ℚ) := by
  with_unfolding_all decide

end Constants
